import Mathlib

/-!
Shallow embedding of the tomcp Cloudflare worker (src/worker/src/index.ts and
its snapshot src/unnamed/part_000): the dual-tier rate limiter, the
HTML-to-Markdown converter, the content fetcher, the two model-invocation
paths, the model catalog, and the chat-route dispatch prefix.

Times are milliseconds since epoch, modelled as `Nat`.  Outbound HTTP calls
are modelled by passing their outcome as an explicit argument.  The
`Math.random() < 0.01` cleanup draw is modelled by an explicit `sweep : Bool`
argument.
-/

namespace ToMCP

/-! ## Rate limiting (isRateLimited, source lines 17-70) -/

/-- RATE_LIMIT.maxPerIP -/
def maxPerIP : Nat := 5

/-- RATE_LIMIT.maxGlobal -/
def maxGlobal : Nat := 200

/-- RATE_LIMIT.windowMs = 24 * 60 * 60 * 1000 -/
def windowMs : Nat := 24 * 60 * 60 * 1000

/-- One entry of `rateLimitMap`: `{ count: number; resetTime: number }`. -/
structure RateEntry where
  count : Nat
  resetTime : Nat
deriving DecidableEq, Repr

/-- The module-level mutable state: the per-IP map `rateLimitMap`
and the singleton `globalCounter`. -/
structure RLState where
  global : RateEntry
  map : String → Option RateEntry

/-- The record returned by `isRateLimited`. -/
structure RLResult where
  limited : Bool
  remaining : Nat
  resetIn : Nat
  reason : Option String
deriving DecidableEq, Repr

/-- The sweep over `rateLimitMap` deleting entries whose window has expired
(`if (val.resetTime < now) rateLimitMap.delete(key)`). -/
def sweepMap (now : Nat) (m : String → Option RateEntry) : String → Option RateEntry :=
  fun k => match m k with
    | some e => if e.resetTime < now then none else some e
    | none => none

/-- Point update of the per-IP map (`rateLimitMap.set(ip, ...)`). -/
def setEntry (m : String → Option RateEntry) (ip : String) (e : RateEntry) :
    String → Option RateEntry :=
  fun k => if k = ip then some e else m k

/-- `isRateLimited(ip)`, source lines 29-70.  `now` is `Date.now()` and
`sweep` tells whether the `Math.random() < 0.01` draw fired. -/
def isRateLimited (now : Nat) (sweep : Bool) (ip : String) (st : RLState) :
    RLResult × RLState :=
  -- Reset global counter if window expired: `if (globalCounter.resetTime < now)`
  let g := if st.global.resetTime < now then ⟨0, now + windowMs⟩ else st.global
  -- Check global limit first
  if maxGlobal ≤ g.count then
    (⟨true, 0, g.resetTime - now, some "Daily limit reached. Try again tomorrow!"⟩,
     ⟨g, st.map⟩)
  else
    -- Clean up old IP entries periodically
    let m := if sweep then sweepMap now st.map else st.map
    match m ip with
    | none =>
        (⟨false, maxPerIP - 1, windowMs, none⟩,
         ⟨⟨g.count + 1, g.resetTime⟩, setEntry m ip ⟨1, now + windowMs⟩⟩)
    | some r =>
        if r.resetTime < now then
          -- New window for this IP
          (⟨false, maxPerIP - 1, windowMs, none⟩,
           ⟨⟨g.count + 1, g.resetTime⟩, setEntry m ip ⟨1, now + windowMs⟩⟩)
        else if maxPerIP ≤ r.count then
          (⟨true, 0, r.resetTime - now, none⟩, ⟨g, m⟩)
        else
          (⟨false, maxPerIP - (r.count + 1), r.resetTime - now, none⟩,
           ⟨⟨g.count + 1, g.resetTime⟩, setEntry m ip ⟨r.count + 1, r.resetTime⟩⟩)

/-- A sequence of `isRateLimited` calls, threading the shared state. -/
def runCalls (calls : List (Nat × Bool × String)) (st : RLState) : RLState :=
  calls.foldl (fun s c => (isRateLimited c.1 c.2.1 c.2.2 s).2) st

/-- The initial module state: empty map,
`globalCounter = { count: 0, resetTime: Date.now() + windowMs }`. -/
def initState (start : Nat) : RLState :=
  ⟨⟨0, start + windowMs⟩, fun _ => none⟩

/-! ## htmlToMarkdown (source lines 79-115)

Each `.replace(regex, replacement)` with a `g` flag is a left-to-right,
non-overlapping scan: at each position the engine tries the pattern; on a
match it emits the replacement and resumes after the matched text, otherwise
it keeps the character and moves on one position.  The patterns here never
match the empty string, so this scan is modelled by `gReplace` below, driven
by a fuel argument that the length of the input always satisfies. -/

/-- ASCII uppercase of a char (`a`-`z` mapped up, everything else fixed). -/
def upperC (c : Char) : Char :=
  if 'a' ≤ c ∧ c ≤ 'z' then Char.ofNat (c.toNat - 32) else c

/-- One pattern char `p` (written in lowercase in the source regex) matches
input char `c` under the regex `i` flag: `c` is `p` or its uppercase form. -/
def ciChar (p c : Char) : Bool := c == p || c == upperC p

/-- Case-insensitive literal: if `pat` is a prefix of `s` up to ASCII case,
return the rest of `s`. -/
def dropPfxCI : List Char → List Char → Option (List Char)
  | [], s => some s
  | _ :: _, [] => none
  | p :: ps, c :: cs => if ciChar p c then dropPfxCI ps cs else none

/-- Case-sensitive literal prefix. -/
def dropPfxCS : List Char → List Char → Option (List Char)
  | [], s => some s
  | _ :: _, [] => none
  | p :: ps, c :: cs => if p = c then dropPfxCS ps cs else none

/-- Split `s` at the earliest position where `find` succeeds: returns the
chars before that position and what `find` left after consuming its pattern.
This is a lazy `[\s\S]*?` (or a forced `[^x]*x`) followed by that pattern. -/
def splitUntil (find : List Char → Option (List Char)) :
    List Char → Option (List Char × List Char)
  | [] => match find [] with
          | some r => some ([], r)
          | none => none
  | c :: cs =>
      match find (c :: cs) with
      | some r => some ([], r)
      | none =>
          match splitUntil find cs with
          | some (b, a) => some (c :: b, a)
          | none => none

/-- The scan driver, with fuel.  Fuel `s.length` always suffices because
every matcher consumes at least one character. -/
def gReplaceF (m : List Char → Option (List Char × List Char)) :
    Nat → List Char → List Char
  | 0, s => s
  | _ + 1, [] => []
  | fuel + 1, c :: cs =>
      match m (c :: cs) with
      | some (o, r) => o ++ gReplaceF m fuel r
      | none => c :: gReplaceF m fuel cs

/-- Global replace: scan `s` left to right with matcher `m`. -/
def gReplace (m : List Char → Option (List Char × List Char))
    (s : List Char) : List Char :=
  gReplaceF m s.length s

/-- `<TAG[^>]*>([\s\S]*?)</TAG>` rewritten to `pre ++ body ++ post`
(headings, paragraphs, code, list items). -/
def matchEnclosed (oTag cTag pre post : String) (s : List Char) :
    Option (List Char × List Char) :=
  match dropPfxCI oTag.data s with
  | none => none
  | some r1 =>
      match splitUntil (dropPfxCS ">".data) r1 with
      | none => none
      | some (_, r2) =>
          match splitUntil (dropPfxCI cTag.data) r2 with
          | none => none
          | some (body, r3) => some (pre.data ++ body ++ post.data, r3)

/-- `<TAG[\s\S]*?</TAG>` removed entirely (script and style blocks). -/
def matchRemoved (oTag cTag : String) (s : List Char) :
    Option (List Char × List Char) :=
  match dropPfxCI oTag.data s with
  | none => none
  | some r1 =>
      match splitUntil (dropPfxCI cTag.data) r1 with
      | none => none
      | some (_, r2) => some ([], r2)

/-- `<(t1|t2)[^>]*>([\s\S]*?)</(t1|t2)>` wrapped in `delim` on both sides
(bold/strong and italic/em; the closing tag is matched independently of the
opening one, as in the source regex). -/
def matchWrap (o1 o2 c1 c2 delim : String) (s : List Char) :
    Option (List Char × List Char) :=
  match (dropPfxCI o1.data s).orElse (fun _ => dropPfxCI o2.data s) with
  | none => none
  | some r1 =>
      match splitUntil (dropPfxCS ">".data) r1 with
      | none => none
      | some (_, r2) =>
          match splitUntil (fun t =>
              (dropPfxCI c1.data t).orElse (fun _ => dropPfxCI c2.data t)) r2 with
          | none => none
          | some (body, r3) => some (delim.data ++ body ++ delim.data, r3)

/-- `<pre[^>]*><code[^>]*>([\s\S]*?)</code></pre>` to a fenced block. -/
def matchPreCode (s : List Char) : Option (List Char × List Char) :=
  match dropPfxCI "<pre".data s with
  | none => none
  | some r1 =>
      match splitUntil (dropPfxCS ">".data) r1 with
      | none => none
      | some (_, r2) =>
          match dropPfxCI "<code".data r2 with
          | none => none
          | some r3 =>
              match splitUntil (dropPfxCS ">".data) r3 with
              | none => none
              | some (_, r4) =>
                  match splitUntil (dropPfxCI "</code></pre>".data) r4 with
                  | none => none
                  | some (body, r5) =>
                      some ("```\n".data ++ body ++ "\n```\n\n".data, r5)

/-- Greedy `[^>]*href="` inside an anchor tag: the last `href="` occurrence
that starts before the first `>` (backtracking to earlier occurrences after a
later failure is not modelled). -/
def lastHref : List Char → Option (List Char)
  | [] => none
  | c :: cs =>
      if c = '>' then none
      else
        match dropPfxCI "href=\"".data (c :: cs) with
        | some r =>
            match lastHref cs with
            | some r2 => some r2
            | none => some r
        | none => lastHref cs

/-- `<a[^>]*href="([^"]*)"[^>]*>([\s\S]*?)</a>` to `[$2]($1)`. -/
def matchAnchor (s : List Char) : Option (List Char × List Char) :=
  match dropPfxCI "<a".data s with
  | none => none
  | some r1 =>
      match lastHref r1 with
      | none => none
      | some r2 =>
          match splitUntil (dropPfxCS "\"".data) r2 with
          | none => none
          | some (href, r3) =>
              match splitUntil (dropPfxCS ">".data) r3 with
              | none => none
              | some (_, r4) =>
                  match splitUntil (dropPfxCI "</a>".data) r4 with
                  | none => none
                  | some (body, r5) =>
                      some ("[".data ++ body ++ "](".data ++ href ++ ")".data, r5)

/-- `</?[uo]l[^>]*>` to a newline. -/
def matchListTag (s : List Char) : Option (List Char × List Char) :=
  match dropPfxCS "<".data s with
  | none => none
  | some r1 =>
      let r2 := match dropPfxCS "/".data r1 with
                | some r => r
                | none => r1
      match (dropPfxCI "ul".data r2).orElse (fun _ => dropPfxCI "ol".data r2) with
      | none => none
      | some r3 =>
          match splitUntil (dropPfxCS ">".data) r3 with
          | none => none
          | some (_, r4) => some ("\n".data, r4)

/-- `<[^>]+>` stripped (at least one char between the brackets). -/
def matchStrip (s : List Char) : Option (List Char × List Char) :=
  match dropPfxCS "<".data s with
  | none => none
  | some r1 =>
      match splitUntil (dropPfxCS ">".data) r1 with
      | none => none
      | some (gap, r2) => if gap.isEmpty then none else some ([], r2)

/-- A case-sensitive literal entity replaced by `rep`. -/
def matchLit (pat : String) (rep : List Char) (s : List Char) :
    Option (List Char × List Char) :=
  match dropPfxCS pat.data s with
  | none => none
  | some r => some (rep, r)

/-- Drop a leading run of newlines. -/
def dropNLs : List Char → List Char
  | [] => []
  | c :: cs => if c = '\n' then dropNLs cs else c :: cs

/-- `\n{3,}` (greedy, so a maximal run) collapsed to exactly two newlines. -/
def matchNL3 : List Char → Option (List Char × List Char)
  | c1 :: c2 :: c3 :: rest =>
      if c1 = '\n' ∧ c2 = '\n' ∧ c3 = '\n' then
        some (['\n', '\n'], dropNLs rest)
      else none
  | _ => none

/-- The whitespace class of `String.prototype.trim`. -/
def isJsSpace (c : Char) : Bool :=
  c == ' ' || c == '\t' || c == '\n' || c == '\r' ||
  c == Char.ofNat 11 || c == Char.ofNat 12 ||
  c == Char.ofNat 0xA0 || c == Char.ofNat 0xFEFF

/-- `.trim()`: strip leading and trailing whitespace. -/
def trimChars (s : List Char) : List Char :=
  (((s.dropWhile isJsSpace).reverse).dropWhile isJsSpace).reverse

/-- The substitution chain of `htmlToMarkdown` before the final newline
collapse and trim, in source order. -/
def preCollapse (s0 : List Char) : List Char :=
  let s1 := gReplace (matchRemoved "<script" "</script>") s0
  let s2 := gReplace (matchRemoved "<style" "</style>") s1
  let s3 := gReplace (matchEnclosed "<h1" "</h1>" "# " "\n\n") s2
  let s4 := gReplace (matchEnclosed "<h2" "</h2>" "## " "\n\n") s3
  let s5 := gReplace (matchEnclosed "<h3" "</h3>" "### " "\n\n") s4
  let s6 := gReplace (matchEnclosed "<h4" "</h4>" "#### " "\n\n") s5
  let s7 := gReplace (matchEnclosed "<p" "</p>" "" "\n\n") s6
  let s8 := gReplace matchAnchor s7
  let s9 := gReplace (matchWrap "<strong" "<b" "</strong>" "</b>" "**") s8
  let s10 := gReplace (matchWrap "<em" "<i" "</em>" "</i>" "*") s9
  let s11 := gReplace matchPreCode s10
  let s12 := gReplace (matchEnclosed "<code" "</code>" "`" "`") s11
  let s13 := gReplace (matchEnclosed "<li" "</li>" "- " "\n") s12
  let s14 := gReplace matchListTag s13
  let s15 := gReplace matchStrip s14
  let s16 := gReplace (matchLit "&nbsp;" " ".data) s15
  let s17 := gReplace (matchLit "&amp;" "&".data) s16
  let s18 := gReplace (matchLit "&lt;" "<".data) s17
  let s19 := gReplace (matchLit "&gt;" ">".data) s18
  let s20 := gReplace (matchLit "&quot;" "\"".data) s19
  gReplace (matchLit "&#39;" [Char.ofNat 39]) s20

/-- The full substitution chain of `htmlToMarkdown`: the replacement chain,
then the newline collapse, then the trim. -/
def htmlToMarkdownL (s0 : List Char) : List Char :=
  trimChars (gReplace matchNL3 (preCollapse s0))

/-- `htmlToMarkdown(html)`. -/
def htmlToMarkdown (html : String) : String :=
  ⟨htmlToMarkdownL html.data⟩

/-! ## fetchWebsiteContent (source lines 118-133) -/

/-- The outcome of an outbound `fetch`: a transport failure carrying the
caught error message, or a response with HTTP status and body text. -/
inductive FetchOutcome where
  | netError (message : String)
  | response (status : Nat) (body : String)
deriving DecidableEq, Repr

/-- `response.ok`: status in the 2xx range. -/
def respOk (status : Nat) : Bool := 200 ≤ status && status < 300

/-- `fetchWebsiteContent(url)` with the outbound call outcome explicit. -/
def fetchWebsiteContent (url : String) (outcome : FetchOutcome) : String :=
  match outcome with
  | .netError msg => "Error fetching " ++ url ++ ": " ++ msg
  | .response status body =>
      if respOk status then ⟨(htmlToMarkdownL body.data).take 30000⟩
      else "Error: Could not fetch " ++ url ++ " (" ++ toString status ++ ")"

/-! ## Model Gateway (source lines 203-318) -/

def DEFAULT_MODEL : String := "@cf/meta/llama-3.1-8b-instruct"

/-- An apostrophe, kept out of string literals. -/
def apos : String := ⟨[Char.ofNat 39]⟩

/-- A chat turn `{ role, content }`. -/
structure ChatMsg where
  role : String
  content : String
deriving DecidableEq, Repr

/-- The synthesized system prompt shared by both invocation paths. -/
def systemPrompt (websiteUrl websiteContent : String) : String :=
  "You are a helpful assistant that answers questions about the website " ++
  websiteUrl ++
  ".\nYou have access to the website" ++ apos ++
  "s content below. Answer questions based on this content.\nIf the answer isn" ++
  apos ++ "t in the content, say so honestly.\n\nWebsite Content:\n" ++
  websiteContent

/-- The message envelope: system turn, last 6 history turns, new user turn. -/
def buildMessages (websiteUrl websiteContent userMessage : String)
    (chatHistory : List ChatMsg) : List ChatMsg :=
  ⟨"system", systemPrompt websiteUrl websiteContent⟩ ::
    (chatHistory.drop (chatHistory.length - 6) ++ [⟨"user", userMessage⟩])

/-- Model ids must begin with an at-sign, else the default model is used. -/
def resolveModel (modelId : String) : String :=
  if modelId.startsWith "@" then modelId else DEFAULT_MODEL

/-- An absent or empty response payload falls back to the fixed literal
string `No response generated`. -/
def payloadOrDefault (p : Option String) : String :=
  match p with
  | some s => if s = "" then "No response generated" else s
  | none => "No response generated"

def MAX_RETRIES : Nat := 3

/-- The retry loop of `chatWithAI` (source lines 235-252) from attempt number
`attempt` with `left` attempts remaining (including the current one).  The
backend call is `run`, mapping an attempt number to its outcome: a thrown
error message or a response payload.  Returns the final outcome and the list
of delays slept before retries, in order. -/
def retryLoop (run : Nat → Except String (Option String)) :
    Nat → Nat → Except String String × List Nat
  | _, 0 => (.error "AI request failed after retries", [])
  | attempt, left + 1 =>
      match run attempt with
      | .ok p => (.ok (payloadOrDefault p), [])
      | .error e =>
          if left = 0 then (.error e, [])
          else
            let r := retryLoop run (attempt + 1) left
            (r.1, attempt * 500 :: r.2)

/-- `chatWithAI`: managed path, retry loop over at most `MAX_RETRIES`
attempts. -/
def chatWithAI (run : Nat → Except String (Option String)) :
    Except String String × List Nat :=
  retryLoop run 1 MAX_RETRIES

/-- The fields of the parsed `ai/run` REST response body that the code reads
(`success`, `errors[..].message`, `result.response`).  A body that fails to
parse on the error path is `{}`: every field absent. -/
structure RunBody where
  success : Option Bool
  errors : List String
  result : Option (Option String)
deriving DecidableEq, Repr

/-- `chatWithUserApiKey` (source lines 283-318) after its single REST call,
as a function of the response status and parsed body. -/
def chatWithUserApiKey (status : Nat) (body : RunBody) : Except String String :=
  if respOk status then
    if body.success = some true then
      match body.result with
      | some (some r) => .ok (if r = "" then "No response generated" else r)
      | some none => .ok "No response generated"
      | none => .ok "No response generated"
    else
      .error (match body.errors.head? with
              | some m => m
              | none => "AI request failed")
  else
    let errorMsg := match body.errors.head? with
      | some m => m
      | none => "API error: " ++ toString status
    if status = 401 ∨ status = 403 then
      .error "Invalid API key. Please check your Cloudflare API token."
    else if status = 429 then
      .error "API rate limit exceeded on your account."
    else
      .error ("Cloudflare API error: " ++ errorMsg)

/-! ## Model catalog (source lines 136-200) -/

/-- A formatted model entry `{ id, name, provider, free }`. -/
structure ModelDescriptor where
  id : String
  name : String
  provider : String
  free : Bool
deriving DecidableEq, Repr

/-- The `modelsCache` slot. -/
structure ModelsCache where
  models : List ModelDescriptor
  timestamp : Nat
deriving DecidableEq, Repr

def MODELS_CACHE_TTL : Nat := 5 * 60 * 1000

/-- One entry of the upstream model-search result (the fields read by the
code: `name`, `task.name`, `description`, `properties[..].property_id`). -/
structure ApiModel where
  name : String
  taskName : Option String
  description : Option String
  propertyIds : List String
deriving DecidableEq, Repr

/-- `m.description`, else the last path segment of `m.name` with every dash
replaced by a space, else `m.name` (each step skipped when falsy). -/
def deriveName (m : ApiModel) : String :=
  let fromId :=
    match (m.name.splitOn "/").getLast? with
    | some seg => let r := seg.replace "-" " "
                  if r = "" then m.name else r
    | none => m.name
  match m.description with
  | some d => if d = "" then fromId else d
  | none => fromId

/-- The provider: the second path segment of the id, else `Unknown` when
absent or empty. -/
def deriveProvider (m : ApiModel) : String :=
  match (m.name.splitOn "/").get? 1 with
  | some s => if s = "" then "Unknown" else s
  | none => "Unknown"

/-- The sort comparator: free models first, then alphabetically by name. -/
def modelLe (a b : ModelDescriptor) : Bool :=
  if a.free != b.free then a.free else a.name ≤ b.name

/-- The hardcoded fallback list (source lines 185-198). -/
def fallbackModels : List ModelDescriptor :=
  [⟨"@cf/meta/llama-3.1-8b-instruct", "Llama 3.1 8B", "Meta", true⟩,
   ⟨"@hf/nousresearch/hermes-2-pro-mistral-7b", "Hermes 2 Pro", "NousResearch", true⟩,
   ⟨"@cf/mistral/mistral-7b-instruct-v0.1", "Mistral 7B", "Mistral", true⟩,
   ⟨"@cf/google/gemma-7b-it-lora", "Gemma 7B LoRA", "Google", true⟩,
   ⟨"@cf/meta/llama-3.3-70b-instruct-fp8-fast", "Llama 3.3 70B", "Meta", false⟩,
   ⟨"@cf/deepseek-ai/deepseek-r1-distill-qwen-32b", "DeepSeek R1 32B", "DeepSeek", false⟩,
   ⟨"@cf/mistral/mistral-large-2407", "Mistral Large", "Mistral", false⟩,
   ⟨"@cf/google/gemma-3-12b-it", "Gemma 3 12B", "Google", false⟩,
   ⟨"@cf/openai/gpt-oss-120b", "GPT OSS 120B", "OpenAI", false⟩,
   ⟨"@cf/openai/gpt-oss-20b", "GPT OSS 20B", "OpenAI", false⟩]

/-- The filter-map-sort pipeline applied to a successful search result. -/
def formatModels (result : List ApiModel) : List ModelDescriptor :=
  ((result.filter (fun m =>
      m.taskName = some "Text Generation" &&
      !(decide (("embedding".data : List Char) <:+: m.name.data)))).map (fun m =>
      ⟨m.name, deriveName m, deriveProvider m, m.propertyIds.contains "beta"⟩)
    ).insertionSort (fun a b => modelLe a b)

/-- `fetchCloudflareModels`, as a function of the cache slot, the clock and
the outcome of the upstream fetch (status and parsed result on success).
Returns the models together with the new cache slot. -/
def fetchCloudflareModels (cache : Option ModelsCache) (now : Nat)
    (fetchResult : Except String (Nat × List ApiModel)) :
    List ModelDescriptor × Option ModelsCache :=
  let fresh : Bool :=
    match cache with
    | some c => now - c.timestamp < MODELS_CACHE_TTL
    | none => false
  if fresh then
    (match cache with
     | some c => c.models
     | none => [], cache)
  else
    match fetchResult with
    | .error _ => (fallbackModels, cache)
    | .ok (status, result) =>
        if respOk status then
          let models := formatModels result
          (models, some ⟨models, now⟩)
        else (fallbackModels, cache)

/-- The `GET /models` route (source lines 426-431): HTTP status and body. -/
def modelsRoute (cache : Option ModelsCache) (now : Nat)
    (fetchResult : Except String (Nat × List ApiModel)) :
    Nat × List ModelDescriptor × Option ModelsCache :=
  let r := fetchCloudflareModels cache now fetchResult
  (200, r.1, r.2)

/-! ## Chat route prefix (source lines 458-503) -/

/-- JS falsiness of an optional string field: absent or empty. -/
def isFalsy (s : Option String) : Bool :=
  match s with
  | none => true
  | some v => v = ""

/-- The chat request body fields used before dispatch. -/
structure ChatRequest where
  url : Option String
  message : Option String
  apiKey : Option String
  accountId : Option String

/-- `hasValidApiKey = !!apiKey && apiKey.length > 20 && !!userAccountId`. -/
def hasValidApiKey (req : ChatRequest) : Bool :=
  (match req.apiKey with
   | some k => decide (20 < k.length)
   | none => false) &&
  !(isFalsy req.accountId)

/-- How far the chat route got before dispatching to a gateway path. -/
inductive ChatStage where
  | rateLimited (retryAfter : Nat)
  | validationError
  | proceed (usedApiKey : Bool)
deriving DecidableEq, Repr

/-- The head of the `POST /chat` route (source lines 469-503): credential
test, rate limiting for credential-less requests, then required-field
validation, threading the limiter state. -/
def chatRoutePrefix (req : ChatRequest) (clientIP : String) (now : Nat)
    (sweep : Bool) (st : RLState) : ChatStage × RLState :=
  if hasValidApiKey req then
    if isFalsy req.url || isFalsy req.message then (.validationError, st)
    else (.proceed true, st)
  else
    let r := isRateLimited now sweep clientIP st
    if r.1.limited then (.rateLimited ((r.1.resetIn + 999) / 1000), r.2)
    else if isFalsy req.url || isFalsy req.message then (.validationError, r.2)
    else (.proceed false, r.2)

/-! ## Scanner infrastructure lemmas -/

theorem dropPfxCI_length :
    ∀ (p s r : List Char), dropPfxCI p s = some r → r.length + p.length = s.length
  | [], s, r, h => by simp [dropPfxCI] at h; simp [h]
  | _ :: _, [], r, h => by simp [dropPfxCI] at h
  | p :: ps, c :: cs, r, h => by
      by_cases hc : ciChar p c
      · simp [dropPfxCI, hc] at h
        have := dropPfxCI_length ps cs r h
        simp [List.length_cons]; omega
      · simp [dropPfxCI, hc] at h

theorem dropPfxCS_length :
    ∀ (p s r : List Char), dropPfxCS p s = some r → r.length + p.length = s.length
  | [], s, r, h => by simp [dropPfxCS] at h; simp [h]
  | _ :: _, [], r, h => by simp [dropPfxCS] at h
  | p :: ps, c :: cs, r, h => by
      by_cases hc : p = c
      · simp [dropPfxCS, hc] at h
        have := dropPfxCS_length ps cs r h
        simp [List.length_cons]; omega
      · simp [dropPfxCS, hc] at h

theorem dropPfxCI_le (p s r : List Char) (h : dropPfxCI p s = some r) :
    r.length ≤ s.length := by
  have := dropPfxCI_length p s r h; omega

theorem dropPfxCS_le (p s r : List Char) (h : dropPfxCS p s = some r) :
    r.length ≤ s.length := by
  have := dropPfxCS_length p s r h; omega

theorem dropPfxCI_lt (p s r : List Char) (hp : p ≠ []) (h : dropPfxCI p s = some r) :
    r.length < s.length := by
  have := dropPfxCI_length p s r h
  have : p.length ≠ 0 := by simpa using hp
  omega

theorem dropPfxCS_lt (p s r : List Char) (hp : p ≠ []) (h : dropPfxCS p s = some r) :
    r.length < s.length := by
  have := dropPfxCS_length p s r h
  have : p.length ≠ 0 := by simpa using hp
  omega

theorem splitUntil_lt (find : List Char → Option (List Char))
    (hf : ∀ t r, find t = some r → r.length < t.length) :
    ∀ (s b a : List Char), splitUntil find s = some (b, a) → a.length < s.length
  | [], b, a, h => by
      rcases hfind : find [] with _ | r
      · simp [splitUntil, hfind] at h
      · exact absurd (hf [] r hfind) (by simp)
  | c :: cs, b, a, h => by
      rcases hfind : find (c :: cs) with _ | r
      · rcases hrec : splitUntil find cs with _ | ⟨b', a'⟩
        · simp [splitUntil, hfind, hrec] at h
        · simp [splitUntil, hfind, hrec] at h
          obtain ⟨hb, ha⟩ := h
          subst ha
          have := splitUntil_lt find hf cs b' a' hrec
          simp only [List.length_cons]; omega
      · simp [splitUntil, hfind] at h
        obtain ⟨hb, ha⟩ := h
        subst ha
        exact hf _ _ hfind

theorem orElse_dropPfxCI_le (p1 p2 s r : List Char)
    (h : (dropPfxCI p1 s).orElse (fun _ => dropPfxCI p2 s) = some r) :
    r.length ≤ s.length := by
  rcases ha : dropPfxCI p1 s with _ | u
  · rw [ha] at h; simp only [Option.orElse] at h
    exact dropPfxCI_le _ _ _ h
  · rw [ha] at h; simp only [Option.orElse, Option.some.injEq] at h
    exact h ▸ dropPfxCI_le _ _ _ ha

theorem orElse_dropPfxCI_lt (p1 p2 s r : List Char) (h1 : p1 ≠ []) (h2 : p2 ≠ [])
    (h : (dropPfxCI p1 s).orElse (fun _ => dropPfxCI p2 s) = some r) :
    r.length < s.length := by
  rcases ha : dropPfxCI p1 s with _ | u
  · rw [ha] at h; simp only [Option.orElse] at h
    exact dropPfxCI_lt _ _ _ h2 h
  · rw [ha] at h; simp only [Option.orElse, Option.some.injEq] at h
    exact h ▸ dropPfxCI_lt _ _ _ h1 ha

theorem matchEnclosed_shrink (oT cT pre post : String) (hct : cT.data ≠ [])
    (s o r : List Char) (h : matchEnclosed oT cT pre post s = some (o, r)) :
    r.length < s.length := by
  unfold matchEnclosed at h
  rcases h1 : dropPfxCI oT.data s with _ | r1 <;> simp [h1] at h
  rcases h2 : splitUntil (dropPfxCS ">".data) r1 with _ | ⟨b2, r2⟩ <;> simp [h2] at h
  rcases h3 : splitUntil (dropPfxCI cT.data) r2 with _ | ⟨b3, r3⟩ <;> simp [h3] at h
  obtain ⟨-, hr⟩ := h
  subst hr
  have l1 := dropPfxCI_le oT.data s r1 h1
  have l2 := splitUntil_lt _ (fun t u hu => dropPfxCS_lt _ _ _ (by simp) hu) r1 b2 r2 h2
  have l3 := splitUntil_lt _ (fun t u hu => dropPfxCI_lt _ _ _ hct hu) r2 b3 r3 h3
  omega

theorem matchRemoved_shrink (oT cT : String) (hct : cT.data ≠ [])
    (s o r : List Char) (h : matchRemoved oT cT s = some (o, r)) :
    r.length < s.length := by
  unfold matchRemoved at h
  rcases h1 : dropPfxCI oT.data s with _ | r1 <;> simp [h1] at h
  rcases h2 : splitUntil (dropPfxCI cT.data) r1 with _ | ⟨b2, r2⟩ <;> simp [h2] at h
  obtain ⟨-, hr⟩ := h
  subst hr
  have l1 := dropPfxCI_le oT.data s r1 h1
  have l2 := splitUntil_lt _ (fun t u hu => dropPfxCI_lt _ _ _ hct hu) r1 b2 r2 h2
  omega

theorem matchWrap_shrink (o1 o2 c1 c2 delim : String)
    (hc1 : c1.data ≠ []) (hc2 : c2.data ≠ [])
    (s o r : List Char) (h : matchWrap o1 o2 c1 c2 delim s = some (o, r)) :
    r.length < s.length := by
  unfold matchWrap at h
  rcases h1 : (dropPfxCI o1.data s).orElse (fun _ => dropPfxCI o2.data s)
    with _ | r1 <;> simp [h1] at h
  rcases h2 : splitUntil (dropPfxCS ">".data) r1 with _ | ⟨b2, r2⟩ <;> simp [h2] at h
  rcases h3 : splitUntil (fun t =>
      (dropPfxCI c1.data t).orElse (fun _ => dropPfxCI c2.data t)) r2
    with _ | ⟨b3, r3⟩ <;> simp [h3] at h
  obtain ⟨-, hr⟩ := h
  subst hr
  have l1 := orElse_dropPfxCI_le _ _ _ _ h1
  have l2 := splitUntil_lt _ (fun t u hu => dropPfxCS_lt _ _ _ (by simp) hu) r1 b2 r2 h2
  have l3 := splitUntil_lt _ (fun t u hu => orElse_dropPfxCI_lt _ _ _ _ hc1 hc2 hu) r2 b3 r3 h3
  omega

theorem matchPreCode_shrink (s o r : List Char) (h : matchPreCode s = some (o, r)) :
    r.length < s.length := by
  unfold matchPreCode at h
  rcases h1 : dropPfxCI "<pre".data s with _ | r1 <;> simp [h1] at h
  rcases h2 : splitUntil (dropPfxCS ">".data) r1 with _ | ⟨b2, r2⟩ <;> simp [h2] at h
  rcases h3 : dropPfxCI "<code".data r2 with _ | r3 <;> simp [h3] at h
  rcases h4 : splitUntil (dropPfxCS ">".data) r3 with _ | ⟨b4, r4⟩ <;> simp [h4] at h
  rcases h5 : splitUntil (dropPfxCI "</code></pre>".data) r4 with _ | ⟨b5, r5⟩ <;> simp [h5] at h
  obtain ⟨-, hr⟩ := h
  subst hr
  have l1 := dropPfxCI_le _ _ _ h1
  have l2 := splitUntil_lt _ (fun t u hu => dropPfxCS_lt _ _ _ (by simp) hu) r1 b2 r2 h2
  have l3 := dropPfxCI_le _ _ _ h3
  have l4 := splitUntil_lt _ (fun t u hu => dropPfxCS_lt _ _ _ (by simp) hu) r3 b4 r4 h4
  have l5 := splitUntil_lt _ (fun t u hu => dropPfxCI_lt _ _ _ (by simp) hu) r4 b5 r5 h5
  omega

theorem lastHref_le :
    ∀ (s r : List Char), lastHref s = some r → r.length ≤ s.length
  | [], r, h => by simp [lastHref] at h
  | c :: cs, r, h => by
      unfold lastHref at h
      by_cases hgt : c = '>'
      · simp [hgt] at h
      · rw [if_neg hgt] at h
        rcases h1 : dropPfxCI "href=\"".data (c :: cs) with _ | u <;> rw [h1] at h
        · have := lastHref_le cs r h
          simp only [List.length_cons]; omega
        · rcases h2 : lastHref cs with _ | r2 <;> rw [h2] at h <;>
            simp only [Option.some.injEq] at h
          · subst h
            have := dropPfxCI_le _ _ _ h1
            omega
          · subst h
            have := lastHref_le cs r2 h2
            simp only [List.length_cons]; omega

theorem matchAnchor_shrink (s o r : List Char) (h : matchAnchor s = some (o, r)) :
    r.length < s.length := by
  unfold matchAnchor at h
  rcases h1 : dropPfxCI "<a".data s with _ | r1 <;> simp [h1] at h
  rcases h2 : lastHref r1 with _ | r2 <;> simp [h2] at h
  rcases h3 : splitUntil (dropPfxCS "\"".data) r2 with _ | ⟨b3, r3⟩ <;> simp [h3] at h
  rcases h4 : splitUntil (dropPfxCS ">".data) r3 with _ | ⟨b4, r4⟩ <;> simp [h4] at h
  rcases h5 : splitUntil (dropPfxCI "</a>".data) r4 with _ | ⟨b5, r5⟩ <;> simp [h5] at h
  obtain ⟨-, hr⟩ := h
  subst hr
  have l1 := dropPfxCI_le _ _ _ h1
  have l2 := lastHref_le _ _ h2
  have l3 := splitUntil_lt _ (fun t u hu => dropPfxCS_lt _ _ _ (by simp) hu) r2 b3 r3 h3
  have l4 := splitUntil_lt _ (fun t u hu => dropPfxCS_lt _ _ _ (by simp) hu) r3 b4 r4 h4
  have l5 := splitUntil_lt _ (fun t u hu => dropPfxCI_lt _ _ _ (by simp) hu) r4 b5 r5 h5
  omega

theorem matchListTag_shrink (s o r : List Char) (h : matchListTag s = some (o, r)) :
    r.length < s.length := by
  unfold matchListTag at h
  rcases h1 : dropPfxCS "<".data s with _ | r1 <;> simp [h1] at h
  rcases h2 : (dropPfxCI "ul".data (match dropPfxCS "/".data r1 with
      | some r => r
      | none => r1)).orElse (fun _ => dropPfxCI "ol".data (match dropPfxCS "/".data r1 with
      | some r => r
      | none => r1)) with _ | r3 <;> simp [h2] at h
  rcases h4 : splitUntil (dropPfxCS ">".data) r3 with _ | ⟨b4, r4⟩ <;> simp [h4] at h
  obtain ⟨-, hr⟩ := h
  subst hr
  have l1 := dropPfxCS_le _ _ _ h1
  have lmid : (match dropPfxCS "/".data r1 with
      | some r => r
      | none => r1).length ≤ r1.length := by
    rcases hm : dropPfxCS "/".data r1 with _ | u
    · exact le_rfl
    · exact dropPfxCS_le _ _ _ hm
  have l2 := orElse_dropPfxCI_le _ _ _ _ h2
  have l4 := splitUntil_lt _ (fun t u hu => dropPfxCS_lt _ _ _ (by simp) hu) r3 b4 r4 h4
  omega

theorem matchStrip_shrink (s o r : List Char) (h : matchStrip s = some (o, r)) :
    r.length < s.length := by
  unfold matchStrip at h
  rcases h1 : dropPfxCS "<".data s with _ | r1 <;> simp [h1] at h
  rcases h2 : splitUntil (dropPfxCS ">".data) r1 with _ | ⟨b2, r2⟩ <;> simp [h2] at h
  obtain ⟨-, -, hr⟩ := h
  subst hr
  have l1 := dropPfxCS_le _ _ _ h1
  have l2 := splitUntil_lt _ (fun t u hu => dropPfxCS_lt _ _ _ (by simp) hu) r1 b2 r2 h2
  omega

theorem matchLit_shrink (pat : String) (rep : List Char) (hp : pat.data ≠ [])
    (s o r : List Char) (h : matchLit pat rep s = some (o, r)) :
    r.length < s.length := by
  unfold matchLit at h
  rcases h1 : dropPfxCS pat.data s with _ | r1 <;> simp [h1] at h
  obtain ⟨-, hr⟩ := h
  subst hr
  exact dropPfxCS_lt _ _ _ hp h1

theorem dropNLs_le : ∀ (s : List Char), (dropNLs s).length ≤ s.length
  | [] => le_rfl
  | c :: cs => by
      unfold dropNLs
      by_cases hc : c = '\n'
      · rw [if_pos hc]
        have := dropNLs_le cs
        simp only [List.length_cons]; omega
      · rw [if_neg hc]

theorem matchNL3_shrink (s o r : List Char) (h : matchNL3 s = some (o, r)) :
    r.length < s.length := by
  match s with
  | [] => simp [matchNL3] at h
  | [c1] => simp [matchNL3] at h
  | [c1, c2] => simp [matchNL3] at h
  | c1 :: c2 :: c3 :: rest =>
      have hdef : matchNL3 (c1 :: c2 :: c3 :: rest) =
          if c1 = '\n' ∧ c2 = '\n' ∧ c3 = '\n' then
            some (['\n', '\n'], dropNLs rest)
          else none := rfl
      rw [hdef] at h
      by_cases hc : c1 = '\n' ∧ c2 = '\n' ∧ c3 = '\n'
      · rw [if_pos hc] at h
        simp only [Option.some.injEq, Prod.mk.injEq] at h
        obtain ⟨-, hr⟩ := h
        subst hr
        have := dropNLs_le rest
        simp only [List.length_cons]; omega
      · rw [if_neg hc] at h
        exact absurd h (by simp)

/-- Fuel irrelevance: any fuel at least the input length gives the same scan. -/
theorem gReplaceF_congr (m : List Char → Option (List Char × List Char))
    (hm : ∀ s o r, m s = some (o, r) → r.length < s.length) :
    ∀ (f1 f2 : Nat) (s : List Char), s.length ≤ f1 → s.length ≤ f2 →
      gReplaceF m f1 s = gReplaceF m f2 s
  | 0, f2, s, hf1, _ => by
      have : s = [] := by
        cases s with
        | nil => rfl
        | cons c cs => simp at hf1
      subst this
      cases f2 <;> rfl
  | f1 + 1, f2, [], _, _ => by cases f2 <;> rfl
  | f1 + 1, f2, c :: cs, hf1, hf2 => by
      rcases f2 with _ | f2
      · simp at hf2
      · show (match m (c :: cs) with
          | some (o, r) => o ++ gReplaceF m f1 r
          | none => c :: gReplaceF m f1 cs) = (match m (c :: cs) with
          | some (o, r) => o ++ gReplaceF m f2 r
          | none => c :: gReplaceF m f2 cs)
        rcases hmc : m (c :: cs) with _ | ⟨o, r⟩
        · simp only []
          rw [gReplaceF_congr m hm f1 f2 cs (by simp at hf1; omega) (by simp at hf2; omega)]
        · simp only []
          have hlt := hm _ _ _ hmc
          rw [gReplaceF_congr m hm f1 f2 r
            (by simp at hf1 hlt; omega) (by simp at hf2 hlt; omega)]

theorem gReplace_nil (m : List Char → Option (List Char × List Char)) :
    gReplace m [] = [] := rfl

theorem gReplace_cons_none (m : List Char → Option (List Char × List Char))
    (c : Char) (cs : List Char) (h : m (c :: cs) = none) :
    gReplace m (c :: cs) = c :: gReplace m cs := by
  show gReplaceF m (cs.length + 1) (c :: cs) = _
  show (match m (c :: cs) with
    | some (o, r) => o ++ gReplaceF m cs.length r
    | none => c :: gReplaceF m cs.length cs) = _
  rw [h]
  rfl

theorem gReplace_cons_some (m : List Char → Option (List Char × List Char))
    (hm : ∀ s o r, m s = some (o, r) → r.length < s.length)
    (c : Char) (cs o r : List Char) (h : m (c :: cs) = some (o, r)) :
    gReplace m (c :: cs) = o ++ gReplace m r := by
  show gReplaceF m (cs.length + 1) (c :: cs) = _
  show (match m (c :: cs) with
    | some (o, r) => o ++ gReplaceF m cs.length r
    | none => c :: gReplaceF m cs.length cs) = _
  rw [h]
  show o ++ gReplaceF m cs.length r = o ++ gReplace m r
  have hlt := hm _ _ _ h
  simp only [List.length_cons] at hlt
  rw [gReplaceF_congr m hm cs.length r.length r (by omega) le_rfl]
  rfl

/-- A scan whose matcher only fires on a trigger char leaves trigger-free
input unchanged. -/
theorem gReplace_id (m : List Char → Option (List Char × List Char)) (t : Char)
    (hnone : ∀ c cs, c ≠ t → m (c :: cs) = none) :
    ∀ s : List Char, (∀ c ∈ s, c ≠ t) → gReplace m s = s
  | [], _ => rfl
  | c :: cs, h => by
      rw [gReplace_cons_none m c cs (hnone c cs (h c (by simp)))]
      rw [gReplace_id m t hnone cs (fun d hd => h d (by simp [hd]))]

/-! ## Trigger lemmas: every tag matcher fires only on a left angle bracket,
every entity matcher only on an ampersand, the newline collapse only on a
newline. -/

theorem dropPfxCI_none_of_head (t c : Char) (p s : List Char)
    (hp : p.head? = some t) (ht : upperC t = t) (hc : c ≠ t) :
    dropPfxCI p (c :: s) = none := by
  cases p with
  | nil => simp at hp
  | cons t' ps =>
      have ht' : t' = t := by simpa using hp
      rw [ht']
      have hci : ciChar t c = false := by simp [ciChar, ht, hc]
      show (if ciChar t c then dropPfxCI ps s else none) = none
      rw [hci]
      rfl

theorem dropPfxCS_none_of_head (t c : Char) (p s : List Char)
    (hp : p.head? = some t) (hc : c ≠ t) :
    dropPfxCS p (c :: s) = none := by
  cases p with
  | nil => simp at hp
  | cons t' ps =>
      have ht' : t' = t := by simpa using hp
      rw [ht']
      show (if t = c then dropPfxCS ps s else none) = none
      rw [if_neg (fun h => hc h.symm)]

theorem matchEnclosed_trigger (oT cT pre post : String) (c : Char) (cs : List Char)
    (hoT : oT.data.head? = some '<') (hc : c ≠ '<') :
    matchEnclosed oT cT pre post (c :: cs) = none := by
  unfold matchEnclosed
  rw [dropPfxCI_none_of_head '<' c _ _ hoT (by decide) hc]

theorem matchRemoved_trigger (oT cT : String) (c : Char) (cs : List Char)
    (hoT : oT.data.head? = some '<') (hc : c ≠ '<') :
    matchRemoved oT cT (c :: cs) = none := by
  unfold matchRemoved
  rw [dropPfxCI_none_of_head '<' c _ _ hoT (by decide) hc]

theorem matchWrap_trigger (o1 o2 c1 c2 delim : String) (c : Char) (cs : List Char)
    (ho1 : o1.data.head? = some '<') (ho2 : o2.data.head? = some '<') (hc : c ≠ '<') :
    matchWrap o1 o2 c1 c2 delim (c :: cs) = none := by
  unfold matchWrap
  rw [dropPfxCI_none_of_head '<' c _ _ ho1 (by decide) hc,
      dropPfxCI_none_of_head '<' c _ _ ho2 (by decide) hc]
  rfl

theorem matchPreCode_trigger (c : Char) (cs : List Char) (hc : c ≠ '<') :
    matchPreCode (c :: cs) = none := by
  unfold matchPreCode
  rw [dropPfxCI_none_of_head '<' c _ _ (by decide) (by decide) hc]

theorem matchAnchor_trigger (c : Char) (cs : List Char) (hc : c ≠ '<') :
    matchAnchor (c :: cs) = none := by
  unfold matchAnchor
  rw [dropPfxCI_none_of_head '<' c _ _ (by decide) (by decide) hc]

theorem matchListTag_trigger (c : Char) (cs : List Char) (hc : c ≠ '<') :
    matchListTag (c :: cs) = none := by
  unfold matchListTag
  rw [dropPfxCS_none_of_head '<' c _ _ (by decide) hc]

theorem matchStrip_trigger (c : Char) (cs : List Char) (hc : c ≠ '<') :
    matchStrip (c :: cs) = none := by
  unfold matchStrip
  rw [dropPfxCS_none_of_head '<' c _ _ (by decide) hc]

theorem matchLit_trigger (pat : String) (rep : List Char) (c : Char) (cs : List Char)
    (hp : pat.data.head? = some '&') (hc : c ≠ '&') :
    matchLit pat rep (c :: cs) = none := by
  unfold matchLit
  rw [dropPfxCS_none_of_head '&' c _ _ hp hc]

theorem matchNL3_trigger (c : Char) (cs : List Char) (hc : c ≠ '\n') :
    matchNL3 (c :: cs) = none := by
  match cs with
  | [] => rfl
  | [c2] => rfl
  | c2 :: c3 :: rest =>
      show (if c = '\n' ∧ c2 = '\n' ∧ c3 = '\n' then
          some (['\n', '\n'], dropNLs rest) else none) = none
      rw [if_neg (by tauto)]

/-! ## Claim theorems -/

/-- C7 counterexample: on the worked example the post-trim output does not
keep the trailing blank lines the claim states — the final `.trim()` removes
them. -/
theorem htmlToMarkdown_example_claim_refuted :
    htmlToMarkdown "<h1>Title</h1><p>Hello <b>world</b></p>" ≠
      "# Title\n\nHello **world**\n\n" := by decide

/-- C7 (amended): `htmlToMarkdown` applied to the exact input
`<h1>Title</h1><p>Hello <b>world</b></p>` yields `# Title\n\nHello **world**`
after the final trim step (the trailing blank lines of the paragraph rule are
trimmed away). -/
theorem htmlToMarkdown_example :
    htmlToMarkdown "<h1>Title</h1><p>Hello <b>world</b></p>" =
      "# Title\n\nHello **world**" := by decide

/-- C6: `fetchWebsiteContent` is total over its fetch outcome: a transport
failure returns the `Error fetching` string, a non-2xx response returns the
`Error: Could not fetch` string, and a 2xx response returns the body piped
through `htmlToMarkdown` truncated to at most 30000 characters. -/
theorem fetchWebsiteContent_contract (url body msg : String) (status : Nat) :
    (fetchWebsiteContent url (.netError msg) =
      "Error fetching " ++ url ++ ": " ++ msg) ∧
    (respOk status = false →
      fetchWebsiteContent url (.response status body) =
        "Error: Could not fetch " ++ url ++ " (" ++ toString status ++ ")") ∧
    (respOk status = true →
      fetchWebsiteContent url (.response status body) =
        (⟨(htmlToMarkdownL body.data).take 30000⟩ : String) ∧
      (fetchWebsiteContent url (.response status body)).length ≤ 30000) := by
  refine ⟨rfl, fun h => ?_, fun h => ?_⟩
  · simp [fetchWebsiteContent, h]
  · constructor
    · simp [fetchWebsiteContent, h]
    · simp only [fetchWebsiteContent, h, if_true]
      show ((htmlToMarkdownL body.data).take 30000).length ≤ 30000
      rw [List.length_take]
      omega

/-- C6 witness. -/
theorem fetchWebsiteContent_contract_witness :
    respOk 404 = false ∧ respOk 200 = true ∧
    fetchWebsiteContent "https://a.b" (.response 404 "x") =
      "Error: Could not fetch https://a.b (404)" ∧
    fetchWebsiteContent "https://a.b" (.netError "boom") =
      "Error fetching https://a.b: boom" ∧
    fetchWebsiteContent "https://a.b" (.response 200 "<p>hi</p>") = "hi" :=
  ⟨by decide, by decide,
   (fetchWebsiteContent_contract "https://a.b" "x" "boom" 404).2.1 (by decide),
   (fetchWebsiteContent_contract "https://a.b" "x" "boom" 404).1,
   ((fetchWebsiteContent_contract "https://a.b" "<p>hi</p>" "boom" 200).2.2
      (by decide)).1.trans (by decide)⟩

/-- C5: `chatWithUserApiKey` classifies its single backend response: 401/403
yields the invalid-credential error, 429 the account-rate-limit error, any
other non-2xx a generic backend error carrying the backend first error
message when present, and a 2xx body whose `success` is not `true` surfaces
the backend first reported error message. -/
theorem chatWithUserApiKey_classification (status : Nat) (body : RunBody) :
    (status = 401 ∨ status = 403 →
      chatWithUserApiKey status body =
        .error "Invalid API key. Please check your Cloudflare API token.") ∧
    (status = 429 →
      chatWithUserApiKey status body =
        .error "API rate limit exceeded on your account.") ∧
    (respOk status = false → status ≠ 401 → status ≠ 403 → status ≠ 429 →
      chatWithUserApiKey status body =
        .error ("Cloudflare API error: " ++
          (match body.errors.head? with
           | some m => m
           | none => "API error: " ++ toString status))) ∧
    (respOk status = true → body.success ≠ some true →
      ∀ m ms, body.errors = m :: ms →
        chatWithUserApiKey status body = .error m) := by
  refine ⟨fun h => ?_, fun h => ?_, fun h h1 h2 h3 => ?_, fun h hs m ms hm => ?_⟩
  · rcases h with h | h <;> subst h <;> simp [chatWithUserApiKey, respOk]
  · subst h; simp [chatWithUserApiKey, respOk]
  · simp [chatWithUserApiKey, h, h1, h2, h3]
  · simp [chatWithUserApiKey, h, hs, hm]

/-- C5 witness. -/
theorem chatWithUserApiKey_classification_witness :
    chatWithUserApiKey 401 ⟨none, [], none⟩ =
      .error "Invalid API key. Please check your Cloudflare API token." ∧
    chatWithUserApiKey 429 ⟨none, [], none⟩ =
      .error "API rate limit exceeded on your account." ∧
    chatWithUserApiKey 500 ⟨none, ["backend exploded"], none⟩ =
      .error "Cloudflare API error: backend exploded" ∧
    chatWithUserApiKey 200 ⟨some false, ["model unavailable"], none⟩ =
      .error "model unavailable" :=
  ⟨(chatWithUserApiKey_classification 401 ⟨none, [], none⟩).1 (Or.inl rfl),
   (chatWithUserApiKey_classification 429 ⟨none, [], none⟩).2.1 rfl,
   ((chatWithUserApiKey_classification 500 ⟨none, ["backend exploded"], none⟩).2.2.1
      (by decide) (by decide) (by decide) (by decide)).trans rfl,
   (chatWithUserApiKey_classification 200 ⟨some false, ["model unavailable"], none⟩).2.2.2
      (by decide) (by decide) "model unavailable" [] rfl⟩

/-- C4: the managed-path retry loop makes at most 3 attempts (the outcome
depends only on attempts 1-3), sleeps `attempt * 500` ms only before a retry,
returns the success payload when the backend fails twice then succeeds, and
surfaces the last error when all three attempts fail. -/
theorem chatWithAI_retry_contract (run : Nat → Except String (Option String)) :
    (∀ run2 : Nat → Except String (Option String),
      run2 1 = run 1 → run2 2 = run 2 → run2 3 = run 3 →
      chatWithAI run2 = chatWithAI run) ∧
    (∀ p, run 1 = .ok p → chatWithAI run = (.ok (payloadOrDefault p), [])) ∧
    (∀ e1 p, run 1 = .error e1 → run 2 = .ok p →
      chatWithAI run = (.ok (payloadOrDefault p), [500])) ∧
    (∀ e1 e2 p, run 1 = .error e1 → run 2 = .error e2 → run 3 = .ok p →
      chatWithAI run = (.ok (payloadOrDefault p), [500, 1000])) ∧
    (∀ e1 e2 e3, run 1 = .error e1 → run 2 = .error e2 → run 3 = .error e3 →
      chatWithAI run = (.error e3, [500, 1000])) := by
  refine ⟨fun run2 g1 g2 g3 => ?_,
          fun p h1 => ?_,
          fun e1 p h1 h2 => ?_,
          fun e1 e2 p h1 h2 h3 => ?_,
          fun e1 e2 e3 h1 h2 h3 => ?_⟩
  · rcases h1 : run 1 with e1 | p1
    · rcases h2 : run 2 with e2 | p2
      · rcases h3 : run 3 with e3 | p3 <;>
          simp [chatWithAI, MAX_RETRIES, retryLoop, h1, h2, h3, g1, g2, g3]
      · simp [chatWithAI, MAX_RETRIES, retryLoop, h1, h2, g1, g2]
    · simp [chatWithAI, MAX_RETRIES, retryLoop, h1, g1]
  · simp [chatWithAI, MAX_RETRIES, retryLoop, h1]
  · simp [chatWithAI, MAX_RETRIES, retryLoop, h1, h2]
  · simp [chatWithAI, MAX_RETRIES, retryLoop, h1, h2, h3]
  · simp [chatWithAI, MAX_RETRIES, retryLoop, h1, h2, h3]

/-- C4 witness: a backend failing twice then succeeding. -/
theorem chatWithAI_retry_contract_witness :
    chatWithAI (fun n => if n = 1 then .error "boom1"
      else if n = 2 then .error "boom2" else .ok (some "answer")) =
      (.ok "answer", [500, 1000]) :=
  ((chatWithAI_retry_contract (fun n => if n = 1 then .error "boom1"
      else if n = 2 then .error "boom2" else .ok (some "answer"))).2.2.2.1
    "boom1" "boom2" (some "answer") rfl rfl rfl).trans rfl

/-- C9: when the catalog fetch errors or returns non-2xx (and the cache is
stale or empty), `fetchCloudflareModels` returns the fixed fallback list,
which has exactly 4 free and 6 paid descriptors, and the models route always
answers with status 200 and a flat model list. -/
theorem fetchCloudflareModels_fallback (cache : Option ModelsCache) (now : Nat)
    (err : String) (status : Nat) (result : List ApiModel)
    (hstale : ∀ c, cache = some c → MODELS_CACHE_TTL ≤ now - c.timestamp) :
    (fetchCloudflareModels cache now (.error err)).1 = fallbackModels ∧
    (respOk status = false →
      (fetchCloudflareModels cache now (.ok (status, result))).1 = fallbackModels) ∧
    (fallbackModels.filter (fun m => m.free)).length = 4 ∧
    (fallbackModels.filter (fun m => !m.free)).length = 6 ∧
    ∀ fr, (modelsRoute cache now fr).1 = 200 := by
  rcases cache with _ | c
  · refine ⟨?_, fun h => ?_, by decide, by decide, fun fr => rfl⟩
    · simp [fetchCloudflareModels]
    · simp [fetchCloudflareModels, h]
  · have hns : ¬(now - c.timestamp < MODELS_CACHE_TTL) := by
      have := hstale c rfl; omega
    refine ⟨?_, fun h => ?_, by decide, by decide, fun fr => rfl⟩
    · simp [fetchCloudflareModels, hns]
    · simp [fetchCloudflareModels, hns, h]

/-- C9 witness. -/
theorem fetchCloudflareModels_fallback_witness :
    (fetchCloudflareModels none 0 (.error "network down")).1 = fallbackModels ∧
    respOk 500 = false ∧
    (fetchCloudflareModels none 0 (.ok (500, []))).1 = fallbackModels ∧
    (modelsRoute none 0 (.error "network down")).1 = 200 :=
  ⟨(fetchCloudflareModels_fallback none 0 "network down" 500 []
      (fun c h => by cases h)).1,
   by decide,
   (fetchCloudflareModels_fallback none 0 "network down" 500 []
      (fun c h => by cases h)).2.1 (by decide),
   (fetchCloudflareModels_fallback none 0 "network down" 500 []
      (fun c h => by cases h)).2.2.2.2 (.error "network down")⟩

/-- C3 counterexample: at the exact instant `now = windowResetAt` the global
counter is NOT reset (the source tests `resetTime < now`, strictly): with the
counter at the ceiling and `resetTime = now = 1000`, the call is denied and
the counter is left at 200 instead of being reset to 0. -/
theorem globalReset_at_boundary_refuted :
    (isRateLimited 1000 false "c" ⟨⟨200, 1000⟩, fun _ => none⟩).2.global =
      (⟨200, 1000⟩ : RateEntry) ∧
    (isRateLimited 1000 false "c" ⟨⟨200, 1000⟩, fun _ => none⟩).1.limited = true := by
  constructor <;> rfl

/-- C3 (amended): the global counter is reset exactly when
`windowResetAt < now` (strictly); a call at `now = windowResetAt` does not
trigger the reset.  When the reset fires, the new `windowResetAt` is
`now + 24h`, computed forward from the current time and never from the old
value, and the new count is 0 before the call is accounted (so at most 1
afterwards). -/
theorem globalReset_condition (st : RLState) (now : Nat) (sweep : Bool) (ip : String) :
    (st.global.resetTime < now →
      (isRateLimited now sweep ip st).2.global.resetTime = now + windowMs ∧
      (isRateLimited now sweep ip st).2.global.count ≤ 1) ∧
    (now ≤ st.global.resetTime →
      (isRateLimited now sweep ip st).2.global.resetTime = st.global.resetTime) := by
  constructor
  · intro h
    simp only [isRateLimited, if_pos h]
    rw [if_neg (by simp [maxGlobal])]
    split
    · simp
    · split
      · simp
      · split <;> simp
  · intro h
    simp only [isRateLimited, if_neg (show ¬st.global.resetTime < now by omega)]
    split
    · rfl
    · split
      · simp
      · split
        · simp
        · split <;> rfl

/-- C3 witness. -/
theorem globalReset_condition_witness :
    ((1000 : Nat) < 2000 ∧
      (isRateLimited 2000 false "c" ⟨⟨7, 1000⟩, fun _ => none⟩).2.global.resetTime =
        2000 + windowMs) ∧
    ((2000 : Nat) ≤ 2000 ∧
      (isRateLimited 2000 false "c" ⟨⟨7, 2000⟩, fun _ => none⟩).2.global.resetTime =
        2000) :=
  ⟨⟨by decide,
    ((globalReset_condition ⟨⟨7, 1000⟩, fun _ => none⟩ 2000 false "c").1 (by decide)).1⟩,
   ⟨by decide,
    (globalReset_condition ⟨⟨7, 2000⟩, fun _ => none⟩ 2000 false "c").2 (by decide)⟩⟩

/-! ## Rate limiter invariants -/

/-- One `isRateLimited` call keeps the global count at or below the ceiling. -/
theorem isRateLimited_global_le (now : Nat) (sweep : Bool) (ip : String)
    (st : RLState) (h : st.global.count ≤ maxGlobal) :
    (isRateLimited now sweep ip st).2.global.count ≤ maxGlobal := by
  by_cases hrt : st.global.resetTime < now
  · simp only [isRateLimited, if_pos hrt]
    rw [if_neg (by simp [maxGlobal])]
    split
    · simp [maxGlobal]
    · split
      · simp [maxGlobal]
      · split
        · simp [maxGlobal]
        · simp [maxGlobal]
  · simp only [isRateLimited, if_neg hrt]
    split
    · simpa using h
    · rename_i hgc
      simp only [maxGlobal] at hgc
      split
      · simp only [maxGlobal]
        simp
        omega
      · split
        · simp only [maxGlobal]
          simp
          omega
        · split
          · simpa [maxGlobal] using h
          · simp only [maxGlobal]
            simp
            omega

/-- The per-IP map invariant: every entry is at or below the per-IP ceiling. -/
def mapInv (m : String → Option RateEntry) : Prop :=
  ∀ k e, m k = some e → e.count ≤ maxPerIP

theorem sweepMap_inv (now : Nat) (m : String → Option RateEntry)
    (h : mapInv m) : mapInv (sweepMap now m) := by
  intro k e hk
  unfold sweepMap at hk
  rcases hm : m k with _ | e'
  · simp [hm] at hk
  · simp only [hm] at hk
    by_cases he : e'.resetTime < now
    · simp [he] at hk
    · simp [he] at hk
      exact hk ▸ h k e' hm

theorem setEntry_inv (m : String → Option RateEntry) (ip : String) (e0 : RateEntry)
    (h : mapInv m) (he : e0.count ≤ maxPerIP) : mapInv (setEntry m ip e0) := by
  intro k e hk
  unfold setEntry at hk
  by_cases hip : k = ip
  · rw [if_pos hip] at hk
    simp at hk
    exact hk ▸ he
  · rw [if_neg hip] at hk
    exact h k e hk

theorem optSweep_inv (now : Nat) (sweep : Bool) (m : String → Option RateEntry)
    (h : mapInv m) : mapInv (if sweep then sweepMap now m else m) := by
  split
  · exact sweepMap_inv now m h
  · exact h

/-- One `isRateLimited` call preserves the per-IP map invariant. -/
theorem isRateLimited_map_inv (now : Nat) (sweep : Bool) (ip : String)
    (st : RLState) (h : mapInv st.map) :
    mapInv (isRateLimited now sweep ip st).2.map := by
  have hm := optSweep_inv now sweep st.map h
  by_cases hrt : st.global.resetTime < now
  · simp only [isRateLimited, if_pos hrt]
    split
    · exact h
    · split
      · exact setEntry_inv _ _ _ hm (by simp [maxPerIP])
      · split
        · exact setEntry_inv _ _ _ hm (by simp [maxPerIP])
        · split
          · exact hm
          · rename_i hcnt
            exact setEntry_inv _ _ _ hm (by simp only [maxPerIP] at hcnt ⊢; omega)
  · simp only [isRateLimited, if_neg hrt]
    split
    · exact h
    · split
      · exact setEntry_inv _ _ _ hm (by simp [maxPerIP])
      · split
        · exact setEntry_inv _ _ _ hm (by simp [maxPerIP])
        · split
          · exact hm
          · rename_i hcnt
            exact setEntry_inv _ _ _ hm (by simp only [maxPerIP] at hcnt ⊢; omega)

theorem runCalls_global_le (calls : List (Nat × Bool × String)) :
    ∀ st : RLState, st.global.count ≤ maxGlobal →
      (runCalls calls st).global.count ≤ maxGlobal := by
  induction calls with
  | nil => intro st h; exact h
  | cons c cs ih =>
      intro st h
      simp only [runCalls, List.foldl_cons]
      exact ih _ (isRateLimited_global_le c.1 c.2.1 c.2.2 st h)

theorem runCalls_map_inv (calls : List (Nat × Bool × String)) :
    ∀ st : RLState, mapInv st.map → mapInv (runCalls calls st).map := by
  induction calls with
  | nil => intro st h; exact h
  | cons c cs ih =>
      intro st h
      simp only [runCalls, List.foldl_cons]
      exact ih _ (isRateLimited_map_inv c.1 c.2.1 c.2.2 st h)

/-- C1: over any call sequence the global count never exceeds the ceiling,
and a call arriving while the global count is at (or above) the ceiling
within the current window is denied with the daily-limit reason, remaining 0
and resetIn = windowResetAt - now, irrespective of the per-client map, which
is left untouched — the global check runs before any per-client logic. -/
theorem globalCeiling_dominates (st : RLState) (calls : List (Nat × Bool × String))
    (now : Nat) (sweep : Bool) (ip : String) :
    (st.global.count ≤ maxGlobal →
      (runCalls calls st).global.count ≤ maxGlobal) ∧
    (maxGlobal ≤ st.global.count → now ≤ st.global.resetTime →
      isRateLimited now sweep ip st =
        (⟨true, 0, st.global.resetTime - now,
          some "Daily limit reached. Try again tomorrow!"⟩, ⟨st.global, st.map⟩)) := by
  constructor
  · exact fun h => runCalls_global_le calls st h
  · intro h1 h2
    simp only [isRateLimited, if_neg (show ¬st.global.resetTime < now by omega)]
    rw [if_pos h1]

/-- C1 witness. -/
theorem globalCeiling_dominates_witness :
    ((initState 0).global.count ≤ maxGlobal ∧
      (runCalls [(50, false, "a"), (60, false, "b"), (70, true, "a")]
        (initState 0)).global.count ≤ maxGlobal) ∧
    (maxGlobal ≤ (200 : Nat) ∧ (500 : Nat) ≤ 1000 ∧
      isRateLimited 500 false "z" ⟨⟨200, 1000⟩, fun _ => none⟩ =
        (⟨true, 0, 500, some "Daily limit reached. Try again tomorrow!"⟩,
         ⟨⟨200, 1000⟩, fun _ => none⟩)) :=
  ⟨⟨by decide,
    (globalCeiling_dominates (initState 0)
      [(50, false, "a"), (60, false, "b"), (70, true, "a")] 500 false "z").1
      (by decide)⟩,
   ⟨by decide, by decide,
    ((globalCeiling_dominates ⟨⟨200, 1000⟩, fun _ => none⟩ [] 500 false "z").2
      (by decide) (by decide)).trans rfl⟩⟩

/-- C2: over any call sequence every per-client count stays at or below the
per-client ceiling; a call whose record is at the ceiling with an unexpired
window is denied with remaining 0; and once the clock has advanced past the
record window, the next call (with the global ceiling not yet reached)
installs a fresh record with count 1 and returns allowed with remaining 4. -/
theorem perClient_ceiling (st : RLState) (calls : List (Nat × Bool × String))
    (now : Nat) (sweep : Bool) (ip : String) (r : RateEntry) :
    (mapInv st.map → mapInv (runCalls calls st).map) ∧
    (st.map ip = some r → maxPerIP ≤ r.count → now ≤ r.resetTime →
      (isRateLimited now sweep ip st).1.limited = true ∧
      (isRateLimited now sweep ip st).1.remaining = 0) ∧
    (st.map ip = some r → r.resetTime < now →
      (if st.global.resetTime < now then 0 else st.global.count) < maxGlobal →
      (isRateLimited now sweep ip st).1 =
        ⟨false, maxPerIP - 1, windowMs, none⟩ ∧
      (isRateLimited now sweep ip st).2.map ip = some ⟨1, now + windowMs⟩) := by
  refine ⟨fun h => runCalls_map_inv calls st h, fun hr hc hu => ?_, fun hr he hg => ?_⟩
  · have hne : ¬r.resetTime < now := by omega
    by_cases hrt : st.global.resetTime < now
    · rcases sweep with _ | _ <;>
        simp [isRateLimited, hrt, maxGlobal, hr, sweepMap, hne, hc]
    · by_cases hgc : maxGlobal ≤ st.global.count
      · simp [isRateLimited, hrt, hgc]
      · rcases sweep with _ | _ <;>
          simp [isRateLimited, hrt, hgc, hr, sweepMap, hne, hc]
  · by_cases hrt : st.global.resetTime < now
    · rcases sweep with _ | _ <;>
        simp [isRateLimited, hrt, maxGlobal, hr, sweepMap, he, setEntry]
    · rw [if_neg hrt] at hg
      have hgc : ¬maxGlobal ≤ st.global.count := by omega
      rcases sweep with _ | _ <;>
        simp [isRateLimited, hrt, hgc, hr, sweepMap, he, setEntry]

/-- C2 witness. -/
theorem perClient_ceiling_witness :
    (mapInv (fun k => if k = "a" then some ⟨5, 10000⟩ else none) ∧
      mapInv (runCalls [(20, false, "a"), (30, false, "b")]
        ⟨⟨0, 10000⟩, fun k => if k = "a" then some ⟨5, 10000⟩ else none⟩).map) ∧
    ((isRateLimited 500 false "a"
        ⟨⟨0, 10000⟩, fun k => if k = "a" then some ⟨5, 10000⟩ else none⟩).1.limited = true ∧
      (isRateLimited 500 false "a"
        ⟨⟨0, 10000⟩, fun k => if k = "a" then some ⟨5, 10000⟩ else none⟩).1.remaining = 0) ∧
    ((isRateLimited 20000 true "a"
        ⟨⟨0, 10000⟩, fun k => if k = "a" then some ⟨5, 10000⟩ else none⟩).1 =
        ⟨false, maxPerIP - 1, windowMs, none⟩ ∧
      (isRateLimited 20000 true "a"
        ⟨⟨0, 10000⟩, fun k => if k = "a" then some ⟨5, 10000⟩ else none⟩).2.map "a" =
        some ⟨1, 20000 + windowMs⟩) := by
  have hinv : mapInv (fun k => if k = "a" then some ⟨5, 10000⟩ else none) := by
    intro k e hk
    by_cases hka : k = "a"
    · simp [hka] at hk
      cases hk
      decide
    · simp [hka] at hk
  refine ⟨⟨hinv, ?_⟩, ?_, ?_⟩
  · exact (perClient_ceiling ⟨⟨0, 10000⟩, fun k => if k = "a" then some ⟨5, 10000⟩ else none⟩
      [(20, false, "a"), (30, false, "b")] 0 false "a" ⟨5, 10000⟩).1 hinv
  · exact (perClient_ceiling ⟨⟨0, 10000⟩, fun k => if k = "a" then some ⟨5, 10000⟩ else none⟩
      [] 500 false "a" ⟨5, 10000⟩).2.1 (by simp) (by decide) (by decide)
  · exact (perClient_ceiling ⟨⟨0, 10000⟩, fun k => if k = "a" then some ⟨5, 10000⟩ else none⟩
      [] 20000 true "a" ⟨5, 10000⟩).2.2 (by simp) (by decide) (by decide)

/-- The count of a live (unexpired) record of `ip`, 0 when absent or expired. -/
def liveCount (now : Nat) (m : String → Option RateEntry) (ip : String) : Nat :=
  match m ip with
  | some r => if r.resetTime < now then 0 else r.count
  | none => 0

/-- An allowed call increments the (post-reset) global count by one and
installs a record with the previous live count plus one. -/
theorem isRateLimited_allowed_counts (now : Nat) (sweep : Bool) (ip : String)
    (st : RLState)
    (h : (isRateLimited now sweep ip st).1.limited = false) :
    (isRateLimited now sweep ip st).2.global.count =
      (if st.global.resetTime < now then 0 else st.global.count) + 1 ∧
    ∃ t, (isRateLimited now sweep ip st).2.map ip =
      some ⟨liveCount now st.map ip + 1, t⟩ := by
  have hlive : (match (if sweep then sweepMap now st.map else st.map) ip with
       | some r => if r.resetTime < now then 0 else r.count
       | none => 0) = liveCount now st.map ip := by
    rcases hm : st.map ip with _ | r
    · rcases sweep with _ | _ <;> simp [liveCount, sweepMap, hm]
    · by_cases he : r.resetTime < now <;>
        rcases sweep with _ | _ <;> simp [liveCount, sweepMap, hm, he]
  rw [← hlive]
  revert h
  by_cases hrt : st.global.resetTime < now
  · simp only [isRateLimited, if_pos hrt,
      if_neg (show ¬maxGlobal ≤ (⟨0, now + windowMs⟩ : RateEntry).count by
        simp [maxGlobal])]
    rcases hm0 : (if sweep then sweepMap now st.map else st.map) ip with _ | r
    · simp only [hm0]
      intro _
      exact ⟨by simp, now + windowMs, by simp [setEntry]⟩
    · by_cases he : r.resetTime < now
      · simp only [hm0, if_pos he]
        intro _
        exact ⟨by simp, now + windowMs, by simp [setEntry, he]⟩
      · by_cases hc : maxPerIP ≤ r.count
        · simp only [hm0, if_neg he, if_pos hc]
          intro hcontra
          simp at hcontra
        · simp only [hm0, if_neg he, if_neg hc]
          intro _
          exact ⟨by simp, r.resetTime, by simp [setEntry, he]⟩
  · by_cases hgc : maxGlobal ≤ st.global.count
    · simp only [isRateLimited, if_neg hrt, if_pos hgc]
      intro hcontra
      simp at hcontra
    · simp only [isRateLimited, if_neg hrt, if_neg hgc]
      rcases hm0 : (if sweep then sweepMap now st.map else st.map) ip with _ | r
      · simp only [hm0]
        intro _
        exact ⟨by simp, now + windowMs, by simp [setEntry]⟩
      · by_cases he : r.resetTime < now
        · simp only [hm0, if_pos he]
          intro _
          exact ⟨by simp, now + windowMs, by simp [setEntry, he]⟩
        · by_cases hc : maxPerIP ≤ r.count
          · simp only [hm0, if_neg he, if_pos hc]
            intro hcontra
            simp at hcontra
          · simp only [hm0, if_neg he, if_neg hc]
            intro _
            exact ⟨by simp, r.resetTime, by simp [setEntry, he]⟩

/-- C10: on a credential-less chat request the rate limiter runs before the
url/message validation: a request that is then rejected for missing fields
has already consumed one unit of the per-client and the global quota. -/
theorem chat_quota_before_validation (req : ChatRequest) (clientIP : String)
    (now : Nat) (sweep : Bool) (st : RLState)
    (hkey : hasValidApiKey req = false)
    (hmiss : (isFalsy req.url || isFalsy req.message) = true)
    (hallowed : (isRateLimited now sweep clientIP st).1.limited = false) :
    (chatRoutePrefix req clientIP now sweep st).1 = .validationError ∧
    (chatRoutePrefix req clientIP now sweep st).2.global.count =
      (if st.global.resetTime < now then 0 else st.global.count) + 1 ∧
    ∃ t, (chatRoutePrefix req clientIP now sweep st).2.map clientIP =
      some ⟨liveCount now st.map clientIP + 1, t⟩ := by
  have hroute : chatRoutePrefix req clientIP now sweep st =
      (.validationError, (isRateLimited now sweep clientIP st).2) := by
    simp [chatRoutePrefix, hkey, hallowed, hmiss]
  rw [hroute]
  exact ⟨rfl, (isRateLimited_allowed_counts now sweep clientIP st hallowed).1,
    (isRateLimited_allowed_counts now sweep clientIP st hallowed).2⟩

/-- C10 witness: a request with a message but no url, no credential, fresh
state: rejected for validation yet both counters advance. -/
theorem chat_quota_before_validation_witness :
    hasValidApiKey ⟨none, some "hi", none, none⟩ = false ∧
    (isRateLimited 50 false "1.2.3.4" (initState 0)).1.limited = false ∧
    (chatRoutePrefix ⟨none, some "hi", none, none⟩ "1.2.3.4" 50 false
      (initState 0)).1 = .validationError ∧
    (chatRoutePrefix ⟨none, some "hi", none, none⟩ "1.2.3.4" 50 false
      (initState 0)).2.global.count = 1 ∧
    ∃ t, (chatRoutePrefix ⟨none, some "hi", none, none⟩ "1.2.3.4" 50 false
      (initState 0)).2.map "1.2.3.4" = some ⟨1, t⟩ :=
  ⟨by decide, by decide,
   (chat_quota_before_validation ⟨none, some "hi", none, none⟩ "1.2.3.4" 50 false
      (initState 0) (by decide) (by decide) (by decide)).1,
   ((chat_quota_before_validation ⟨none, some "hi", none, none⟩ "1.2.3.4" 50 false
      (initState 0) (by decide) (by decide) (by decide)).2.1).trans (by decide),
   (chat_quota_before_validation ⟨none, some "hi", none, none⟩ "1.2.3.4" 50 false
      (initState 0) (by decide) (by decide) (by decide)).2.2⟩

/-! ## Newline-run and trim structure of the converter output -/

/-- Whether a list contains three consecutive newlines. -/
def has3NL : List Char → Bool
  | [] => false
  | [_] => false
  | [_, _] => false
  | c1 :: c2 :: c3 :: t =>
      (decide (c1 = '\n') && decide (c2 = '\n') && decide (c3 = '\n')) ||
        has3NL (c2 :: c3 :: t)

theorem has3NL_cons_ne (c : Char) (l : List Char) (hc : c ≠ '\n') :
    has3NL (c :: l) = has3NL l := by
  match l with
  | [] => rfl
  | [x] => rfl
  | x :: y :: t =>
      show ((decide (c = '\n') && _ && _) || has3NL (x :: y :: t)) = _
      simp [hc]

theorem has3NL_cons₂ (a c : Char) (l : List Char) (hc : c ≠ '\n') :
    has3NL (a :: c :: l) = has3NL (c :: l) := by
  match l with
  | [] => rfl
  | x :: t =>
      show ((decide (a = '\n') && decide (c = '\n') && _) || has3NL (c :: x :: t)) = _
      simp [hc]

theorem has3NL_tail (c : Char) (l : List Char) (h : has3NL (c :: l) = false) :
    has3NL l = false := by
  match l with
  | [] => rfl
  | [x] => rfl
  | x :: y :: t =>
      have : (_ || has3NL (x :: y :: t)) = false := h
      simp at this
      exact this.2

theorem has3NL_cons_mono (c : Char) (l : List Char) (h : has3NL l = true) :
    has3NL (c :: l) = true := by
  match l with
  | [] => simp [has3NL] at h
  | [x] => simp [has3NL] at h
  | x :: y :: t =>
      show (_ || has3NL (x :: y :: t)) = true
      simp [h]

theorem has3NL_append_left (p l : List Char) (h : has3NL l = true) :
    has3NL (p ++ l) = true := by
  induction p with
  | nil => exact h
  | cons a as ih => exact has3NL_cons_mono a (as ++ l) ih

theorem has3NL_append_right :
    ∀ (l s : List Char), has3NL l = true → has3NL (l ++ s) = true
  | [], s, h => by simp [has3NL] at h
  | [x], s, h => by simp [has3NL] at h
  | [x, y], s, h => by simp [has3NL] at h
  | c1 :: c2 :: c3 :: t, s, h => by
      have h' : (_ || has3NL (c2 :: c3 :: t)) = true := h
      simp only [Bool.or_eq_true] at h'
      rcases h' with h' | h'
      · show (_ || _) = true
        simp [h']
      · have := has3NL_append_right (c2 :: c3 :: t) s h'
        show (_ || has3NL (c2 :: c3 :: (t ++ s))) = true
        simp only [List.cons_append] at this
        simp [this]

theorem has3NL_extend (l₁ l₂ : List Char) (hi : l₁ <:+: l₂)
    (h : has3NL l₁ = true) : has3NL l₂ = true := by
  obtain ⟨p, s, rfl⟩ := hi
  rw [List.append_assoc]
  exact has3NL_append_left p _ (has3NL_append_right l₁ s h)

theorem dropNLs_head :
    ∀ l : List Char, dropNLs l = [] ∨
      ∃ d ds, dropNLs l = d :: ds ∧ d ≠ '\n'
  | [] => Or.inl rfl
  | c :: cs => by
      by_cases hc : c = '\n'
      · rw [show dropNLs (c :: cs) = if c = '\n' then dropNLs cs else c :: cs
          from rfl, if_pos hc]
        exact dropNLs_head cs
      · rw [show dropNLs (c :: cs) = if c = '\n' then dropNLs cs else c :: cs
          from rfl, if_neg hc]
        exact Or.inr ⟨c, cs, rfl, hc⟩

theorem matchNL3_none₂ (d : Char) (ds : List Char) (hd : d ≠ '\n') :
    ∀ c, matchNL3 (c :: d :: ds) = none := by
  intro c
  match ds with
  | [] => rfl
  | e :: es =>
      show (if c = '\n' ∧ d = '\n' ∧ e = '\n' then _ else none) = none
      rw [if_neg (by tauto)]

/-- The newline collapse leaves no run of three newlines behind. -/
theorem has3NL_collapse :
    ∀ (n : Nat) (s : List Char), s.length ≤ n →
      has3NL (gReplace matchNL3 s) = false
  | _, [], _ => rfl
  | 0, c :: cs, h => by simp at h
  | n + 1, c :: cs, h => by
      by_cases hc : c = '\n'
      · subst hc
        match cs, h with
        | [], _ => decide
        | d :: ds, h =>
            by_cases hd : d = '\n'
            · subst hd
              match ds, h with
              | [], _ => decide
              | e :: es, h =>
                  by_cases he : e = '\n'
                  · subst he
                    rw [gReplace_cons_some matchNL3 matchNL3_shrink _ _ _ _
                      (show matchNL3 ('\n' :: '\n' :: '\n' :: es) =
                        some (['\n', '\n'], dropNLs es) by
                          show (if '\n' = '\n' ∧ '\n' = '\n' ∧ '\n' = '\n' then
                              some (['\n', '\n'], dropNLs es)
                            else none) = some (['\n', '\n'], dropNLs es)
                          rw [if_pos ⟨rfl, rfl, rfl⟩])]
                    have hlen : (dropNLs es).length ≤ n := by
                      have h1 := dropNLs_le es
                      simp only [List.length_cons] at h
                      omega
                    have hY := has3NL_collapse n (dropNLs es) hlen
                    rcases dropNLs_head es with hnil | ⟨d, ds2, hds, hd⟩
                    · rw [hnil]
                      decide
                    · rw [hds] at hY ⊢
                      rw [gReplace_cons_none matchNL3 d ds2
                        (matchNL3_trigger d ds2 hd)] at hY ⊢
                      simp only [List.cons_append, List.nil_append]
                      show ((decide ('\n' = '\n') && decide ('\n' = '\n') &&
                          decide (d = '\n')) ||
                        has3NL ('\n' :: d :: gReplace matchNL3 ds2)) = false
                      rw [has3NL_cons₂ '\n' d _ hd]
                      simp [hd, hY]
                  · rw [gReplace_cons_none matchNL3 '\n' ('\n' :: e :: es)
                      (by show (if '\n' = '\n' ∧ '\n' = '\n' ∧ e = '\n' then
                            some (['\n', '\n'], dropNLs es)
                          else none) = none
                          rw [if_neg (by tauto)])]
                    rw [gReplace_cons_none matchNL3 '\n' (e :: es)
                      (matchNL3_none₂ e es he '\n')]
                    rw [gReplace_cons_none matchNL3 e es (matchNL3_trigger e es he)]
                    have hY : has3NL (gReplace matchNL3 (e :: es)) = false :=
                      has3NL_collapse n (e :: es)
                        (by simp only [List.length_cons] at h ⊢; omega)
                    rw [gReplace_cons_none matchNL3 e es
                      (matchNL3_trigger e es he)] at hY
                    show ((decide ('\n' = '\n') && decide ('\n' = '\n') &&
                        decide (e = '\n')) ||
                      has3NL ('\n' :: e :: gReplace matchNL3 es)) = false
                    rw [has3NL_cons₂ '\n' e _ he]
                    simp [he, hY]
            · rw [gReplace_cons_none matchNL3 '\n' (d :: ds)
                (matchNL3_none₂ d ds hd '\n')]
              rw [gReplace_cons_none matchNL3 d ds (matchNL3_trigger d ds hd)]
              have hY : has3NL (gReplace matchNL3 (d :: ds)) = false :=
                has3NL_collapse n (d :: ds)
                  (by simp only [List.length_cons] at h ⊢; omega)
              rw [gReplace_cons_none matchNL3 d ds (matchNL3_trigger d ds hd)] at hY
              rw [has3NL_cons₂ '\n' d _ hd]
              exact hY
      · rw [gReplace_cons_none matchNL3 c cs (matchNL3_trigger c cs hc)]
        rw [has3NL_cons_ne c _ hc]
        exact has3NL_collapse n cs (by simp at h; omega)

theorem trimChars_eq_rdrop (s : List Char) :
    trimChars s = (s.dropWhile isJsSpace).rdropWhile isJsSpace := rfl

theorem trimChars_part (s : List Char) : trimChars s <:+: s := by
  rw [trimChars_eq_rdrop]
  exact (List.rdropWhile_prefix isJsSpace (s.dropWhile isJsSpace)).isInfix.trans
    (List.dropWhile_suffix isJsSpace).isInfix

theorem has3NL_trim (l : List Char) (h : has3NL l = false) :
    has3NL (trimChars l) = false := by
  cases htr : has3NL (trimChars l)
  · rfl
  · exact absurd (has3NL_extend _ _ (trimChars_part l) htr) (by simp [h])

theorem dropWhile_rdrop (z : List Char) (hz : z.dropWhile isJsSpace = z) :
    (z.rdropWhile isJsSpace).dropWhile isJsSpace = z.rdropWhile isJsSpace := by
  cases hr : z.rdropWhile isJsSpace with
  | nil => rfl
  | cons c cs =>
      have hpre : c :: cs <+: z := hr ▸ List.rdropWhile_prefix isJsSpace z
      obtain ⟨t, ht⟩ := hpre
      have hpc : isJsSpace c = false := by
        cases hpc : isJsSpace c
        · rfl
        · exfalso
          rw [← ht, List.cons_append, List.dropWhile_cons, if_pos (by simp [hpc])] at hz
          have hlen := congrArg List.length hz
          have hle : ((cs ++ t).dropWhile isJsSpace).length ≤ (cs ++ t).length :=
            (List.dropWhile_suffix isJsSpace).sublist.length_le
          simp [List.length_append] at hlen hle
          omega
      rw [List.dropWhile_cons, if_neg (by simp [hpc])]

theorem trimChars_idem (l : List Char) : trimChars (trimChars l) = trimChars l := by
  rw [trimChars_eq_rdrop l, trimChars_eq_rdrop,
      dropWhile_rdrop (l.dropWhile isJsSpace) (List.dropWhile_idempotent isJsSpace l)]
  exact List.rdropWhile_idempotent isJsSpace (l.dropWhile isJsSpace)

theorem matchNL3_none_of_no3 (c : Char) (cs : List Char)
    (h : has3NL (c :: cs) = false) : matchNL3 (c :: cs) = none := by
  match cs with
  | [] => rfl
  | [x] => rfl
  | x :: y :: t =>
      show (if c = '\n' ∧ x = '\n' ∧ y = '\n' then some (['\n', '\n'], dropNLs t)
        else none) = none
      rw [if_neg]
      intro hcon
      obtain ⟨hc1, hx1, hy1⟩ := hcon
      subst hc1; subst hx1; subst hy1
      have h' : ((decide ('\n' = '\n') && decide ('\n' = '\n') && decide ('\n' = '\n')) ||
          has3NL ('\n' :: '\n' :: t)) = false := h
      simp at h'

/-- A string with no three consecutive newlines is a fixpoint of the
newline-collapse scan. -/
theorem collapse_id_of_no3 :
    ∀ s : List Char, has3NL s = false → gReplace matchNL3 s = s
  | [], _ => rfl
  | c :: cs, h => by
      rw [gReplace_cons_none matchNL3 c cs (matchNL3_none_of_no3 c cs h)]
      rw [collapse_id_of_no3 cs (has3NL_tail c cs h)]

/-- Input free of angle brackets and ampersands is a fixpoint of the whole
replacement chain before the collapse. -/
theorem preCollapse_id (y : List Char) (hlt : ∀ c ∈ y, c ≠ '<')
    (hamp : ∀ c ∈ y, c ≠ '&') : preCollapse y = y := by
  simp only [preCollapse]
  rw [gReplace_id _ '<'
        (fun c cs hc => matchRemoved_trigger "<script" "</script>" c cs rfl hc) y hlt,
      gReplace_id _ '<'
        (fun c cs hc => matchRemoved_trigger "<style" "</style>" c cs rfl hc) y hlt,
      gReplace_id _ '<'
        (fun c cs hc => matchEnclosed_trigger "<h1" "</h1>" "# " "\n\n" c cs rfl hc) y hlt,
      gReplace_id _ '<'
        (fun c cs hc => matchEnclosed_trigger "<h2" "</h2>" "## " "\n\n" c cs rfl hc) y hlt,
      gReplace_id _ '<'
        (fun c cs hc => matchEnclosed_trigger "<h3" "</h3>" "### " "\n\n" c cs rfl hc) y hlt,
      gReplace_id _ '<'
        (fun c cs hc => matchEnclosed_trigger "<h4" "</h4>" "#### " "\n\n" c cs rfl hc) y hlt,
      gReplace_id _ '<'
        (fun c cs hc => matchEnclosed_trigger "<p" "</p>" "" "\n\n" c cs rfl hc) y hlt,
      gReplace_id _ '<'
        (fun c cs hc => matchAnchor_trigger c cs hc) y hlt,
      gReplace_id _ '<'
        (fun c cs hc => matchWrap_trigger "<strong" "<b" "</strong>" "</b>" "**" c cs rfl rfl hc) y hlt,
      gReplace_id _ '<'
        (fun c cs hc => matchWrap_trigger "<em" "<i" "</em>" "</i>" "*" c cs rfl rfl hc) y hlt,
      gReplace_id _ '<'
        (fun c cs hc => matchPreCode_trigger c cs hc) y hlt,
      gReplace_id _ '<'
        (fun c cs hc => matchEnclosed_trigger "<code" "</code>" "`" "`" c cs rfl hc) y hlt,
      gReplace_id _ '<'
        (fun c cs hc => matchEnclosed_trigger "<li" "</li>" "- " "\n" c cs rfl hc) y hlt,
      gReplace_id _ '<'
        (fun c cs hc => matchListTag_trigger c cs hc) y hlt,
      gReplace_id _ '<'
        (fun c cs hc => matchStrip_trigger c cs hc) y hlt,
      gReplace_id _ '&'
        (fun c cs hc => matchLit_trigger "&nbsp;" " ".data c cs rfl hc) y hamp,
      gReplace_id _ '&'
        (fun c cs hc => matchLit_trigger "&amp;" "&".data c cs rfl hc) y hamp,
      gReplace_id _ '&'
        (fun c cs hc => matchLit_trigger "&lt;" "<".data c cs rfl hc) y hamp,
      gReplace_id _ '&'
        (fun c cs hc => matchLit_trigger "&gt;" ">".data c cs rfl hc) y hamp,
      gReplace_id _ '&'
        (fun c cs hc => matchLit_trigger "&quot;" "\"".data c cs rfl hc) y hamp,
      gReplace_id _ '&'
        (fun c cs hc => matchLit_trigger "&#39;" [Char.ofNat 39] c cs rfl hc) y hamp]

/-- C8 counterexample: the input has no script or style tag, yet a second
application differs — the first pass decodes the entities to real tags, which
the second pass then converts. -/
theorem htmlToMarkdown_idem_refuted :
    (¬("<script".data <:+: "&lt;b&gt;x&lt;/b&gt;".data) ∧
     ¬("<style".data <:+: "&lt;b&gt;x&lt;/b&gt;".data)) ∧
    htmlToMarkdown (htmlToMarkdown "&lt;b&gt;x&lt;/b&gt;") ≠
      htmlToMarkdown "&lt;b&gt;x&lt;/b&gt;" :=
  ⟨⟨by decide, by decide⟩, by decide⟩

/-- C8 (amended): `htmlToMarkdown` is idempotent on every input whose first
conversion contains no left angle bracket and no ampersand (in particular the
claimed script/style-free inputs whose output re-encodes no markup). -/
theorem htmlToMarkdownL_id (y : List Char) (hlt : ∀ c ∈ y, c ≠ '<')
    (hamp : ∀ c ∈ y, c ≠ '&') (hno3 : has3NL y = false)
    (htr : trimChars y = y) : htmlToMarkdownL y = y := by
  show trimChars (gReplace matchNL3 (preCollapse y)) = y
  rw [preCollapse_id y hlt hamp, collapse_id_of_no3 y hno3, htr]

theorem htmlToMarkdownL_unfold (s : List Char) :
    htmlToMarkdownL s = trimChars (gReplace matchNL3 (preCollapse s)) := rfl

theorem string_data_mk (l : List Char) : (⟨l⟩ : String).data = l := rfl

theorem htmlToMarkdown_data (h : String) :
    (htmlToMarkdown h).data = htmlToMarkdownL h.data := by
  unfold htmlToMarkdown
  exact string_data_mk _

theorem has3NL_htmlToMarkdownL (s : List Char) :
    has3NL (htmlToMarkdownL s) = false := by
  rw [htmlToMarkdownL_unfold]
  exact has3NL_trim _ (has3NL_collapse (preCollapse s).length (preCollapse s) le_rfl)

theorem trim_htmlToMarkdownL (s : List Char) :
    trimChars (htmlToMarkdownL s) = htmlToMarkdownL s := by
  rw [htmlToMarkdownL_unfold]
  exact trimChars_idem _

theorem htmlToMarkdown_idem (h : String)
    (h1 : '<' ∉ (htmlToMarkdown h).data) (h2 : '&' ∉ (htmlToMarkdown h).data) :
    htmlToMarkdown (htmlToMarkdown h) = htmlToMarkdown h := by
  have hno3 : has3NL ((htmlToMarkdown h).data) = false := by
    rw [htmlToMarkdown_data]
    exact has3NL_htmlToMarkdownL h.data
  have htr : trimChars ((htmlToMarkdown h).data) = (htmlToMarkdown h).data := by
    rw [htmlToMarkdown_data]
    exact trim_htmlToMarkdownL h.data
  have key := htmlToMarkdownL_id ((htmlToMarkdown h).data)
    (fun c hc he => h1 (he ▸ hc)) (fun c hc he => h2 (he ▸ hc)) hno3 htr
  have hout : htmlToMarkdown (htmlToMarkdown h) =
      ⟨htmlToMarkdownL (htmlToMarkdown h).data⟩ := by
    unfold htmlToMarkdown
    rfl
  rw [hout, key]

/-- C8 witness. -/
theorem htmlToMarkdown_idem_witness :
    '<' ∉ (htmlToMarkdown "<h1>Hi</h1>").data ∧
    '&' ∉ (htmlToMarkdown "<h1>Hi</h1>").data ∧
    htmlToMarkdown (htmlToMarkdown "<h1>Hi</h1>") = htmlToMarkdown "<h1>Hi</h1>" :=
  ⟨by decide, by decide, htmlToMarkdown_idem "<h1>Hi</h1>" (by decide) (by decide)⟩

end ToMCP

